import Mathlib

/-!
# Weather front end (`src/frontend/src/App.jsx`)

A shallow embedding of the React component `App`: its state, the effect that
loads the recent searches, `saveRecentSearch`, `fetchWeather` and the
temperature span of the weather card, together with the JavaScript built-ins
they call (`String.prototype.trim`, `JSON.parse`, `JSON.stringify`,
`encodeURIComponent`, `Math.round`, truthiness, property access).

Modelling conventions.

* A JavaScript string is a Lean `String`: a sequence of Unicode scalar values.
  Strings holding a lone UTF-16 surrogate are outside the model; `JSON.parse`
  maps an escaped lone surrogate to U+FFFD.
* A JavaScript number is `JSNum`: a rational (every finite double is one), the
  two infinities, or NaN. The zeros `+0` and `-0` are identified: the program
  never tells them apart (both are falsy, both print as `0`).
* State setters are applied in program order; one call of `fetchWeather` runs
  from start to end without another one interleaved.
* `console.log` output is not recorded; the evaluation of its arguments is.
* `localStorage.setItem` always succeeds (no quota).
-/

namespace WeatherApp

/-! ## Values -/

/-- A JavaScript number. -/
inductive JSNum where
  | finite (q : ℚ)
  | posInf
  | negInf
  | nan
deriving DecidableEq, Repr

/-- A JavaScript value as far as the component meets them: `undefined`, and the
values `JSON.parse` builds. The fields of an object are kept in property
enumeration order. -/
inductive JSValue where
  | undefined
  | null
  | bool (b : Bool)
  | num (n : JSNum)
  | str (s : String)
  | arr (xs : List JSValue)
  | obj (fields : List (String × JSValue))
deriving Repr

/-- The exceptions the component can meet. -/
inductive JSError where
  | typeError
  | jsonError
  | networkError
deriving DecidableEq, Repr

/-- ToBoolean: the falsy values are `undefined`, `null`, `false`, `0`, `NaN`
and the empty string. -/
def truthy : JSValue → Bool
  | .undefined => false
  | .null => false
  | .bool b => b
  | .num (.finite q) => decide (q ≠ 0)
  | .num .nan => false
  | .num _ => true
  | .str s => !s.data.isEmpty
  | .arr _ => true
  | .obj _ => true

/-- Strict inequality `v !== s` of a value and a string: only a string with the
same characters is equal to `s`. -/
def strictNe (v : JSValue) (s : String) : Bool :=
  match v with
  | .str t => decide (t ≠ s)
  | _ => true

/-- Lookup of an own property in a field list. -/
def lookupField (key : String) : List (String × JSValue) → JSValue
  | [] => .undefined
  | (k, v) :: rest => if k = key then v else lookupField key rest

/-- Property read `v.key` for a key that no built-in prototype defines (used
for `message` and `temperature`): a TypeError on `undefined` and `null`, the own
property of an object, `undefined` elsewhere. -/
def getField (v : JSValue) (key : String) : Except JSError JSValue :=
  match v with
  | .undefined => .error .typeError
  | .null => .error .typeError
  | .obj fields => .ok (lookupField key fields)
  | _ => .ok .undefined

/-! ## Strings -/

/-- WhiteSpace and LineTerminator code points of ECMAScript, the ones `trim`
strips. -/
def isTrimChar (c : Char) : Bool :=
  let n := c.toNat
  n == 9 || n == 10 || n == 11 || n == 12 || n == 13 || n == 32 || n == 160
    || n == 5760 || (8192 ≤ n && n ≤ 8202) || n == 8232 || n == 8233
    || n == 8239 || n == 8287 || n == 12288 || n == 65279

/-- String.prototype.trim. -/
def trim (s : String) : String :=
  ⟨((s.data.dropWhile isTrimChar).reverse.dropWhile isTrimChar).reverse⟩

/-- A hexadecimal digit, upper case. -/
def hexDigitUpper (n : Nat) : Char :=
  if n < 10 then Char.ofNat (48 + n) else Char.ofNat (55 + n)

/-- A hexadecimal digit, lower case. -/
def hexDigitLower (n : Nat) : Char :=
  if n < 10 then Char.ofNat (48 + n) else Char.ofNat (87 + n)

/-- The UTF-8 bytes of a code point. -/
def utf8Bytes (n : Nat) : List Nat :=
  if n < 128 then [n]
  else if n < 2048 then [192 + n / 64, 128 + n % 64]
  else if n < 65536 then [224 + n / 4096, 128 + n / 64 % 64, 128 + n % 64]
  else [240 + n / 262144, 128 + n / 4096 % 64, 128 + n / 64 % 64, 128 + n % 64]

/-- The characters `encodeURIComponent` leaves alone: letters, digits and
`- _ . ! ~ * ' ( )`. -/
def isUriUnreserved (c : Char) : Bool :=
  let n := c.toNat
  (65 ≤ n && n ≤ 90) || (97 ≤ n && n ≤ 122) || (48 ≤ n && n ≤ 57)
    || n == 45 || n == 95 || n == 46 || n == 33 || n == 126 || n == 42
    || n == 39 || n == 40 || n == 41

/-- Percent-encoding of one byte. -/
def percentByte (b : Nat) : List Char :=
  [Char.ofNat 37, hexDigitUpper (b / 16), hexDigitUpper (b % 16)]

/-- The function encodeURIComponent on a well-formed string. -/
def encodeURIComponent (s : String) : String :=
  ⟨s.data.flatMap fun c =>
    if isUriUnreserved c then [c] else (utf8Bytes c.toNat).flatMap percentByte⟩

/-! ## Numbers -/

/-- Rounding of `n / d` to the nearest natural number, ties to even. -/
def roundHalfEven (n d : Nat) : Nat :=
  let q := n / d
  let r := n % d
  if 2 * r < d then q
  else if d < 2 * r then q + 1
  else if q % 2 = 0 then q
  else q + 1

/-- The double nearest to `± n / d` (round to nearest, ties to even): 53
significant bits, least exponent `-1074`, overflow to an infinity. -/
def toDouble (neg : Bool) (n d : Nat) : JSNum :=
  if n = 0 ∨ d = 0 then .finite 0
  else
    let e0 : Int := (Nat.log2 n : Int) - (Nat.log2 d : Int)
    let ge : Bool :=
      if 0 ≤ e0 then decide (d * 2 ^ e0.toNat ≤ n) else decide (d ≤ n * 2 ^ (-e0).toNat)
    let e : Int := if ge then e0 else e0 - 1
    let p : Int := max (e - 52) (-1074)
    if 0 ≤ p then
      let v : Nat := roundHalfEven n (d * 2 ^ p.toNat) * 2 ^ p.toNat
      if 2 ^ 1024 ≤ v then (if neg then .negInf else .posInf)
      else .finite (if neg then -(v : ℚ) else (v : ℚ))
    else
      let m : Nat := roundHalfEven (n * 2 ^ (-p).toNat) d
      .finite (mkRat (if neg then -(m : Int) else (m : Int)) (2 ^ (-p).toNat))

/-- Math.round: the nearest integer, a half rounded towards `+∞`; the
infinities and NaN are returned as they are. -/
def Math.round : JSNum → JSNum
  | .finite q => .finite (⌊q + 1 / 2⌋ : Int)
  | n => n

/-- Number::toString. An integer below `2 ^ 53` in absolute value prints as
its decimal digits; for the other finite numbers the shortest round-trip
digits are left to `fmt`. -/
def numberToString (fmt : ℚ → String) : JSNum → String
  | .nan => "NaN"
  | .posInf => "Infinity"
  | .negInf => "-Infinity"
  | .finite q =>
    if q.den = 1 ∧ q.num.natAbs < 2 ^ 53 then toString q.num else fmt q

/-! ## JSON text -/

namespace JSON

/-- JSON white space: space, tab, line feed, carriage return. -/
def isWs (c : Char) : Bool :=
  c.toNat == 32 || c.toNat == 9 || c.toNat == 10 || c.toNat == 13

/-- Drops leading JSON white space. -/
def skipWs : List Char → List Char
  | [] => []
  | c :: cs => if isWs c then skipWs cs else c :: cs

/-- The value of a hexadecimal digit. -/
def hexVal (c : Char) : Option Nat :=
  let n := c.toNat
  if 48 ≤ n ∧ n ≤ 57 then some (n - 48)
  else if 97 ≤ n ∧ n ≤ 102 then some (n - 87)
  else if 65 ≤ n ∧ n ≤ 70 then some (n - 55)
  else none

/-- The code unit written by four hexadecimal digits. -/
def hex4 (a b c d : Char) : Option Nat :=
  match hexVal a, hexVal b, hexVal c, hexVal d with
  | some x, some y, some z, some w => some (((x * 16 + y) * 16 + z) * 16 + w)
  | _, _, _, _ => none

/-- The character of a one-letter escape: quote, backslash, slash, b, f, n, r, t. -/
def simpleEscape (c : Char) : Option Char :=
  let n := c.toNat
  if n = 34 then some (Char.ofNat 34)
  else if n = 92 then some (Char.ofNat 92)
  else if n = 47 then some (Char.ofNat 47)
  else if n = 98 then some (Char.ofNat 8)
  else if n = 102 then some (Char.ofNat 12)
  else if n = 110 then some (Char.ofNat 10)
  else if n = 114 then some (Char.ofNat 13)
  else if n = 116 then some (Char.ofNat 9)
  else none

/-- The characters (in reverse) that a pending high surrogate contributes when
no low surrogate follows it. -/
def flushHigh : Option Nat → List Char
  | none => []
  | some _ => [Char.ofNat 65533]

/-- The body of a JSON string, after its opening quote: the decoded string and
the text after the closing quote. `hi` is a high surrogate read from the
previous escape and `acc` the characters decoded so far, in reverse. -/
def parseStr (hi : Option Nat) : List Char → List Char → Option (String × List Char)
  | [], _ => none
  | c :: cs, acc =>
    if c.toNat = 34 then some (⟨(flushHigh hi ++ acc).reverse⟩, cs)
    else if c.toNat = 92 then
      match cs with
      | [] => none
      | e :: cs2 =>
        if e.toNat = 117 then
          match cs2 with
          | a :: b :: c2 :: d :: cs3 =>
            match hex4 a b c2 d with
            | none => none
            | some u =>
              if 55296 ≤ u ∧ u ≤ 56319 then parseStr (some u) cs3 (flushHigh hi ++ acc)
              else if 56320 ≤ u ∧ u ≤ 57343 then
                match hi with
                | some h =>
                  parseStr none cs3 (Char.ofNat (65536 + (h - 55296) * 1024 + (u - 56320)) :: acc)
                | none => parseStr none cs3 (Char.ofNat 65533 :: acc)
              else parseStr none cs3 (Char.ofNat u :: flushHigh hi ++ acc)
          | _ => none
        else
          match simpleEscape e with
          | none => none
          | some ch => parseStr none cs2 (ch :: flushHigh hi ++ acc)
    else if c.toNat < 32 then none
    else parseStr none cs (c :: flushHigh hi ++ acc)

/-- Splits off the leading decimal digits. -/
def spanDigits : List Char → List Char × List Char
  | [] => ([], [])
  | c :: cs =>
    if c.isDigit then ((spanDigits cs).1.cons c, (spanDigits cs).2) else ([], c :: cs)

/-- The natural number written by decimal digits. -/
def digitsVal (ds : List Char) : Nat :=
  ds.foldl (fun acc c => acc * 10 + (c.toNat - 48)) 0

/-- The integer part of a number literal: `0`, or a non-zero digit followed by
digits. -/
def parseIntPart : List Char → Option (List Char × List Char)
  | [] => none
  | c :: cs =>
    if c.toNat = 48 then some ([c], cs)
    else if c.isDigit then some ((spanDigits (c :: cs)).1, (spanDigits (c :: cs)).2)
    else none

/-- The optional fraction of a number literal: a dot and at least one digit. -/
def parseFrac : List Char → Option (List Char × List Char)
  | [] => some ([], [])
  | c :: cs =>
    if c.toNat = 46 then
      (if (spanDigits cs).1.isEmpty then none else some (spanDigits cs))
    else some ([], c :: cs)

/-- The optional exponent of a number literal: `e` or `E`, an optional sign and
at least one digit. -/
def parseExp : List Char → Option (Int × List Char)
  | [] => some (0, [])
  | c :: cs =>
    if c.toNat = 101 ∨ c.toNat = 69 then
      match cs with
      | [] => none
      | s :: cs2 =>
        if s.toNat = 45 then
          (if (spanDigits cs2).1.isEmpty then none
           else some (-(digitsVal (spanDigits cs2).1 : Int), (spanDigits cs2).2))
        else if s.toNat = 43 then
          (if (spanDigits cs2).1.isEmpty then none
           else some ((digitsVal (spanDigits cs2).1 : Int), (spanDigits cs2).2))
        else
          (if (spanDigits (s :: cs2)).1.isEmpty then none
           else some ((digitsVal (spanDigits (s :: cs2)).1 : Int), (spanDigits (s :: cs2)).2))
    else some (0, c :: cs)

/-- The double written by the digits `ds` scaled by `10 ^ e`. -/
def decimalToDouble (neg : Bool) (ds : List Char) (e : Int) : JSNum :=
  if 0 ≤ e then toDouble neg (digitsVal ds * 10 ^ e.toNat) 1
  else toDouble neg (digitsVal ds) (10 ^ (-e).toNat)

/-- A JSON number literal, after its optional minus sign. -/
def parseUnsigned (neg : Bool) (cs : List Char) : Option (JSNum × List Char) :=
  match parseIntPart cs with
  | none => none
  | some (ip, r1) =>
    match parseFrac r1 with
    | none => none
    | some (fp, r2) =>
      match parseExp r2 with
      | none => none
      | some (ex, r3) => some (decimalToDouble neg (ip ++ fp) (ex - fp.length), r3)

/-- A JSON number literal. -/
def parseNumber : List Char → Option (JSNum × List Char)
  | [] => none
  | c :: cs => if c.toNat = 45 then parseUnsigned true cs else parseUnsigned false (c :: cs)

/-- The remainder of `cs` after the word `w`, when `cs` starts with it. -/
def expectWord (w : List Char) (cs : List Char) : Option (List Char) :=
  if w.isPrefixOf cs then some (cs.drop w.length) else none

/-- The array index a property key denotes: a canonical decimal numeral at most
`2 ^ 32 - 2`. -/
def arrayIndex (k : String) : Option Nat :=
  match k.data with
  | [] => none
  | c :: cs =>
    if (c :: cs).all Char.isDigit ∧ (c.toNat ≠ 48 ∨ cs = []) ∧ digitsVal (c :: cs) ≤ 4294967294
    then some (digitsVal (c :: cs)) else none

/-- Insertion of a new array-index key `i`: before the first key that is not an
array index or is a larger one. -/
def insertIndexKey (i : Nat) (k : String) (v : JSValue) :
    List (String × JSValue) → List (String × JSValue)
  | [] => [(k, v)]
  | (k2, v2) :: rest =>
    match arrayIndex k2 with
    | some j => if i < j then (k, v) :: (k2, v2) :: rest
                else (k2, v2) :: insertIndexKey i k v rest
    | none => (k, v) :: (k2, v2) :: rest

/-- Replacement of the value of an existing key, its position kept. -/
def replaceProp (k : String) (v : JSValue) :
    List (String × JSValue) → List (String × JSValue)
  | [] => []
  | (k2, v2) :: rest => if k2 = k then (k, v) :: rest else (k2, v2) :: replaceProp k v rest

/-- CreateDataProperty on a field list kept in enumeration order: array-index
keys ascending first, then the other keys in creation order. -/
def setProp (fields : List (String × JSValue)) (k : String) (v : JSValue) :
    List (String × JSValue) :=
  if fields.any (fun p => p.1 == k) then replaceProp k v fields
  else
    match arrayIndex k with
    | some i => insertIndexKey i k v fields
    | none => fields ++ [(k, v)]

mutual
/-- One JSON value at the head of the text, and the text after it. The fuel
bounds the nesting and the number of elements; the length of the text is
enough. -/
def parseValue : Nat → List Char → Option (JSValue × List Char)
  | 0, _ => none
  | fuel + 1, cs =>
    match skipWs cs with
    | [] => none
    | c :: r =>
      if c.toNat = 34 then
        match parseStr none r [] with
        | none => none
        | some (s, r2) => some (.str s, r2)
      else if c.toNat = 91 then
        match skipWs r with
        | [] => none
        | c2 :: r2 =>
          if c2.toNat = 93 then some (.arr [], r2) else parseElems fuel (c2 :: r2) []
      else if c.toNat = 123 then
        match skipWs r with
        | [] => none
        | c2 :: r2 =>
          if c2.toNat = 125 then some (.obj [], r2) else parseMembers fuel (c2 :: r2) []
      else if c.toNat = 116 then
        match expectWord [Char.ofNat 114, Char.ofNat 117, Char.ofNat 101] r with
        | none => none
        | some r2 => some (.bool true, r2)
      else if c.toNat = 102 then
        match expectWord [Char.ofNat 97, Char.ofNat 108, Char.ofNat 115, Char.ofNat 101] r with
        | none => none
        | some r2 => some (.bool false, r2)
      else if c.toNat = 110 then
        match expectWord [Char.ofNat 117, Char.ofNat 108, Char.ofNat 108] r with
        | none => none
        | some r2 => some (.null, r2)
      else
        match parseNumber (c :: r) with
        | none => none
        | some (n, r2) => some (.num n, r2)
/-- The elements of an array after its opening bracket, up to the closing one;
`acc` holds the elements read so far, in reverse. -/
def parseElems : Nat → List Char → List JSValue → Option (JSValue × List Char)
  | 0, _, _ => none
  | fuel + 1, cs, acc =>
    match parseValue fuel cs with
    | none => none
    | some (v, r) =>
      match skipWs r with
      | [] => none
      | c :: r2 =>
        if c.toNat = 44 then parseElems fuel r2 (v :: acc)
        else if c.toNat = 93 then some (.arr (v :: acc).reverse, r2)
        else none
/-- The members of an object after its opening brace, up to the closing one;
`acc` holds the properties created so far. -/
def parseMembers : Nat → List Char → List (String × JSValue) → Option (JSValue × List Char)
  | 0, _, _ => none
  | fuel + 1, cs, acc =>
    match skipWs cs with
    | [] => none
    | c :: r =>
      if c.toNat = 34 then
        match parseStr none r [] with
        | none => none
        | some (k, r1) =>
          match skipWs r1 with
          | [] => none
          | c1 :: r2 =>
            if c1.toNat = 58 then
              match parseValue fuel r2 with
              | none => none
              | some (v, r3) =>
                match skipWs r3 with
                | [] => none
                | c3 :: r4 =>
                  if c3.toNat = 44 then parseMembers fuel r4 (setProp acc k v)
                  else if c3.toNat = 125 then some (.obj (setProp acc k v), r4)
                  else none
            else none
      else none
end

/-- JSON.parse: the value the whole text denotes, or a SyntaxError. -/
def parse (text : String) : Except JSError JSValue :=
  match parseValue (text.data.length + 1) text.data with
  | none => .error .jsonError
  | some (v, rest) => if (skipWs rest).isEmpty then .ok v else .error .jsonError

/-- QuoteJSONString for one character: quote and backslash escaped, the
control characters below U+0020 as their short escape or `\u00xx`. -/
def quoteChar (c : Char) : List Char :=
  let n := c.toNat
  if n = 34 then [Char.ofNat 92, Char.ofNat 34]
  else if n = 92 then [Char.ofNat 92, Char.ofNat 92]
  else if n = 8 then [Char.ofNat 92, Char.ofNat 98]
  else if n = 12 then [Char.ofNat 92, Char.ofNat 102]
  else if n = 10 then [Char.ofNat 92, Char.ofNat 110]
  else if n = 13 then [Char.ofNat 92, Char.ofNat 114]
  else if n = 9 then [Char.ofNat 92, Char.ofNat 116]
  else if n < 32 then
    [Char.ofNat 92, Char.ofNat 117, Char.ofNat 48, Char.ofNat 48,
      hexDigitLower (n / 16), hexDigitLower (n % 16)]
  else [c]

/-- QuoteJSONString. -/
def quote (s : String) : String :=
  ⟨Char.ofNat 34 :: (s.data.flatMap quoteChar ++ [Char.ofNat 34])⟩

mutual
/-- SerializeJSONProperty without indentation: `none` stands for `undefined`. -/
def serialize (fmt : ℚ → String) : JSValue → Option String
  | .undefined => none
  | .null => some "null"
  | .bool b => some (if b then "true" else "false")
  | .num (.finite q) => some (numberToString fmt (.finite q))
  | .num _ => some "null"
  | .str s => some (quote s)
  | .arr xs => some ("[" ++ serializeElems fmt xs ++ "]")
  | .obj fields =>
    some (String.singleton (Char.ofNat 123) ++ ",".intercalate (serializeFields fmt fields)
      ++ String.singleton (Char.ofNat 125))
/-- The elements of an array, comma separated; `undefined` prints as `null`. -/
def serializeElems (fmt : ℚ → String) : List JSValue → String
  | [] => ""
  | [x] => (serialize fmt x).getD "null"
  | x :: y :: rest => (serialize fmt x).getD "null" ++ "," ++ serializeElems fmt (y :: rest)
/-- The members of an object; a property whose value is `undefined` is left
out. -/
def serializeFields (fmt : ℚ → String) : List (String × JSValue) → List String
  | [] => []
  | (k, v) :: rest =>
    match serialize fmt v with
    | none => serializeFields fmt rest
    | some s => (quote k ++ ":" ++ s) :: serializeFields fmt rest
end

/-- JSON.stringify applied to an array. -/
def stringify (fmt : ℚ → String) (xs : List JSValue) : String :=
  "[" ++ serializeElems fmt xs ++ "]"

end JSON

/-! ## The component -/

/-- The outcome of `fetch(url)` followed by `response.json()`. -/
inductive FetchOutcome where
  /-- The promise of `fetch` rejects: the exchange could not complete. -/
  | networkFailure
  /-- A response arrived, with its status code and its body decoded as text. -/
  | response (status : Nat) (body : String)
deriving DecidableEq, Repr

/-- The state of `App` (lines 5-9) and of its surroundings: the entries of
`localStorage` and the URLs requested with `fetch`, oldest first. -/
structure State where
  city : String
  weather : JSValue
  loading : Bool
  error : JSValue
  recentSearches : JSValue
  storage : List (String × String)
  requests : List String

/-- The initial values of the `useState` calls (lines 5-9), over a given
`localStorage`. -/
def State.initial (storage : List (String × String)) : State :=
  { city := "", weather := .null, loading := false, error := .str "",
    recentSearches := .arr [], storage := storage, requests := [] }

/-- The method localStorage.getItem: `none` stands for `null`. -/
def getItem (storage : List (String × String)) (key : String) : Option String :=
  match storage with
  | [] => none
  | (k, v) :: rest => if k = key then some v else getItem rest key

/-- The method localStorage.setItem. -/
def setItem (storage : List (String × String)) (key value : String) :
    List (String × String) :=
  match storage with
  | [] => [(key, value)]
  | (k, v) :: rest => if k = key then (key, value) :: rest else (k, v) :: setItem rest key value

/-- The effect run once on mount (lines 12-17). `JSON.parse` is not guarded:
its SyntaxError leaves the effect. -/
def loadRecentSearches (st : State) : Except JSError State :=
  match getItem st.storage "recentSearches" with
  | none => .ok st
  | some saved =>
    if saved.data.isEmpty then .ok st
    else
      match JSON.parse saved with
      | .error e => .error e
      | .ok v => .ok { st with recentSearches := v }

/-- The array built on line 21:
`[cityName, ...recentSearches.filter(c => c !== cityName)].slice(0, 5)`. -/
def updatedSearches (cityName : String) (recent : List JSValue) : List JSValue :=
  (JSValue.str cityName :: recent.filter fun c => strictNe c cityName).take 5

/-- The function saveRecentSearch (lines 20-24). `recentSearches.filter` is a
TypeError unless `recentSearches` is an array. -/
def saveRecentSearch (fmt : ℚ → String) (cityName : String) (st : State) :
    Except JSError State :=
  match st.recentSearches with
  | .arr recent =>
    .ok { st with
      recentSearches := .arr (updatedSearches cityName recent),
      storage := setItem st.storage "recentSearches"
        (JSON.stringify fmt (updatedSearches cityName recent)) }
  | _ => .error .typeError

/-- The string literal of line 29. -/
def msgEmptyInput : String := "Please enter a city name"

/-- The string literal of line 46. -/
def msgGeneric : String := "Failed to fetch weather data"

/-- The string literal of line 50. -/
def msgUnreachable : String :=
  "Unable to connect to weather service. Make sure the Ballerina API is running on port 8080."

/-- The URL requested on line 37. -/
def weatherUrl (cityName : String) : String :=
  "http://localhost:8080/weather/current?city=" ++ encodeURIComponent cityName

/-- The property response.ok: a status from 200 to 299. -/
def responseOk (status : Nat) : Bool :=
  decide (200 ≤ status ∧ status ≤ 299)

/-- The outcomes that are errors of the transport or of the service: no
response, or a response whose status is not 2xx. -/
def FetchOutcome.failed : FetchOutcome → Bool
  | .networkFailure => true
  | .response status _ => !responseOk status

/-- The body of the `try` block of `fetchWeather` (lines 37-48) run on the
outcome `net` of the request: the state when the block is left, and the
exception that left it, if any. On a 2xx response `setWeather(data)` comes
first, then the read `data.temperature` of the second log (line 43), then
`saveRecentSearch`; otherwise the read `data.message` comes before the
setters. -/
def fetchWeatherTry (fmt : ℚ → String) (cityName : String) (net : FetchOutcome)
    (st : State) : State × Option JSError :=
  match net with
  | .networkFailure => (st, some .networkError)
  | .response status body =>
    match JSON.parse body with
    | .error e => (st, some e)
    | .ok data =>
      if responseOk status then
        match getField data "temperature" with
        | .error e => ({ st with weather := data }, some e)
        | .ok _ =>
          match saveRecentSearch fmt cityName { st with weather := data } with
          | .error e => ({ st with weather := data }, some e)
          | .ok st2 => (st2, none)
      else
        match getField data "message" with
        | .error e => (st, some e)
        | .ok m =>
          ({ st with
              error := if truthy m then m else .str msgGeneric,
              weather := .null }, none)

/-- The function fetchWeather (lines 27-55), run to completion on the outcome
`net` of its request. -/
def fetchWeather (fmt : ℚ → String) (cityName : String) (net : FetchOutcome)
    (st : State) : State :=
  if (trim cityName).data.isEmpty then
    { st with error := .str msgEmptyInput }
  else
    let st1 : State :=
      { st with loading := true, error := .str "",
                requests := st.requests ++ [weatherUrl cityName] }
    let st2 : State :=
      match fetchWeatherTry fmt cityName net st1 with
      | (s, none) => s
      | (s, some _) =>
        { s with error := .str msgUnreachable, weather := .null }
    { st2 with loading := false }

/-- The function handleSubmit (lines 57-60). -/
def handleSubmit (fmt : ℚ → String) (net : FetchOutcome) (st : State) : State :=
  fetchWeather fmt st.city net st

/-- The function handleRecentSearch (lines 62-65), for a recent search that is
a string. -/
def handleRecentSearch (fmt : ℚ → String) (cityName : String) (net : FetchOutcome)
    (st : State) : State :=
  fetchWeather fmt cityName net { st with city := cityName }

/-- A child of a JSX element: a number or a piece of text. -/
inductive Child where
  | num (n : JSNum)
  | text (s : String)
deriving DecidableEq, Repr

/-- The children of the temperature span (lines 145-149) for the weather `w`:
the conditional expression, then the text `°C`. -/
def temperatureSpan (w : JSValue) : Except JSError (List Child) :=
  match getField w "temperature" with
  | .error e => .error e
  | .ok (.num n) =>
    if n ≠ .nan then .ok [.num (Math.round n), .text "°C"]
    else .ok [.text "N/A", .text "°C"]
  | .ok _ => .ok [.text "N/A", .text "°C"]

/-- The text React renders for a child. -/
def Child.toText (fmt : ℚ → String) : Child → String
  | .num n => numberToString fmt n
  | .text s => s

/-- The text content of the temperature span. -/
def temperatureText (fmt : ℚ → String) (w : JSValue) : Except JSError String :=
  match temperatureSpan w with
  | .error e => .error e
  | .ok children => .ok (String.join (children.map (Child.toText fmt)))

/-- The weather card (lines 138-161) is rendered when `weather && !loading`;
the result is the text of its temperature span. -/
def weatherCard (fmt : ℚ → String) (st : State) : Option (Except JSError String) :=
  if truthy st.weather && !st.loading then some (temperatureText fmt st.weather) else none

/-- The calls `saveRecentSearch(c)` for the city names of a list, in order; the
first exception stops the run. -/
def recordAll (fmt : ℚ → String) : List String → State → Except JSError State
  | [], st => .ok st
  | c :: cs, st =>
    match saveRecentSearch fmt c st with
    | .error e => .error e
    | .ok st2 => recordAll fmt cs st2

/-! ## The words of the specification -/

/-- The operation `record` of the specification on a sequence of strings:
the city name, then the existing sequence without it, cut to five. -/
def recordSpec (cityName : String) (existing : List String) : List String :=
  (cityName :: existing.filter (fun c => c ≠ cityName)).take 5

/-- The JSON text of an array of strings. -/
def encodeStrings (xs : List String) : String :=
  "[" ++ ",".intercalate (xs.map JSON.quote) ++ "]"

/-- The characters of the comma-separated JSON texts of a non-empty list of
strings. -/
def elemsData (x : String) (rest : List String) : List Char :=
  (JSON.quote x).data ++ rest.flatMap (fun y => Char.ofNat 44 :: (JSON.quote y).data)

/-- The states the program reaches by calls of `saveRecentSearch` from the
state left by the load effect over the stored entries `storage`. -/
inductive Reachable (fmt : ℚ → String) (storage : List (String × String)) : State → Prop
  | loaded (st : State) :
      loadRecentSearches (State.initial storage) = .ok st → Reachable fmt storage st
  | saved (cityName : String) (st st2 : State) :
      Reachable fmt storage st → saveRecentSearch fmt cityName st = .ok st2 →
      Reachable fmt storage st2

/-- The entry `recentSearches` of the storage is absent, empty, or the JSON text
of an array of at most five strings, none twice. -/
def StoredOk (storage : List (String × String)) : Prop :=
  match getItem storage "recentSearches" with
  | none => True
  | some saved =>
    saved = "" ∨ ∃ xs : List String,
      JSON.parse saved = .ok (.arr (xs.map JSValue.str)) ∧ xs.length ≤ 5 ∧ xs.Nodup

/-- The recent searches are a list of at most five strings, none twice. -/
def RecentOk (st : State) : Prop :=
  ∃ xs : List String, st.recentSearches = .arr (xs.map JSValue.str) ∧ xs.length ≤ 5 ∧ xs.Nodup

/-! ## Lemmas on the built-ins -/

theorem getItem_setItem_same (storage : List (String × String)) (key value : String) :
    getItem (setItem storage key value) key = some value := by
  induction storage with
  | nil => simp [setItem, getItem]
  | cons p rest ih =>
    obtain ⟨k, v⟩ := p
    by_cases h : k = key
    · simp [setItem, getItem, h]
    · simp [setItem, getItem, h, ih]

theorem getItem_setItem_other (storage : List (String × String)) (key value other : String)
    (h : other ≠ key) :
    getItem (setItem storage key value) other = getItem storage other := by
  induction storage with
  | nil => simp [setItem, getItem, h.symm]
  | cons p rest ih =>
    obtain ⟨k, v⟩ := p
    by_cases hk : k = key
    · subst hk
      simp [setItem, getItem, h.symm]
    · by_cases ho : k = other
      · subst ho
        simp [setItem, getItem, hk]
      · simp [setItem, getItem, hk, ho, ih]

theorem filter_strictNe_map_str (c : String) (xs : List String) :
    (xs.map JSValue.str).filter (fun v => strictNe v c)
      = (xs.filter (fun x => x ≠ c)).map JSValue.str := by
  rw [List.filter_map]
  rfl

theorem updatedSearches_map_str (c : String) (xs : List String) :
    updatedSearches c (xs.map JSValue.str) = (recordSpec c xs).map JSValue.str := by
  unfold updatedSearches recordSpec
  rw [filter_strictNe_map_str, List.map_take, List.map_cons]

theorem recordSpec_length_le (c : String) (xs : List String) :
    (recordSpec c xs).length ≤ 5 := by
  simp [recordSpec, List.length_take]

theorem recordSpec_nodup (c : String) (xs : List String) (h : xs.Nodup) :
    (recordSpec c xs).Nodup := by
  unfold recordSpec
  refine List.Nodup.sublist (List.take_sublist _ _) ?_
  refine List.nodup_cons.mpr ⟨?_, h.filter _⟩
  simp [List.mem_filter]

theorem intercalate_go_append (sep a b : String) (xs : List String) :
    String.intercalate.go (a ++ b) sep xs = a ++ String.intercalate.go b sep xs := by
  induction xs generalizing b with
  | nil => simp [String.intercalate.go]
  | cons x rest ih =>
    simp only [String.intercalate.go]
    rw [String.append_assoc, String.append_assoc, ih, String.append_assoc]

theorem serializeElems_strings (fmt : ℚ → String) (x : String) (rest : List String) :
    JSON.serializeElems fmt ((x :: rest).map JSValue.str)
      = String.intercalate.go (JSON.quote x) "," (rest.map JSON.quote) := by
  induction rest generalizing x with
  | nil => simp [JSON.serializeElems, JSON.serialize, String.intercalate.go]
  | cons y r ih =>
    have h := ih y
    simp only [List.map_cons] at h ⊢
    simp only [JSON.serializeElems, JSON.serialize, Option.getD_some, String.intercalate.go]
    rw [h, intercalate_go_append]

theorem stringify_strings (fmt : ℚ → String) (xs : List String) :
    JSON.stringify fmt (xs.map JSValue.str) = encodeStrings xs := by
  unfold JSON.stringify encodeStrings
  cases xs with
  | nil => simp [JSON.serializeElems, String.intercalate]
  | cons x rest =>
    rw [serializeElems_strings]
    simp [String.intercalate]

theorem parseElems_arr (fuel : Nat) :
    ∀ (cs : List Char) (acc : List JSValue) (v : JSValue) (r : List Char),
      JSON.parseElems fuel cs acc = some (v, r) → ∃ xs, v = .arr xs := by
  induction fuel with
  | zero => intro cs acc v r h; simp [JSON.parseElems] at h
  | succ n ih =>
    intro cs acc v r h
    unfold JSON.parseElems at h
    split at h
    · cases h
    · split at h
      · cases h
      · split at h
        · exact ih _ _ _ _ h
        · split at h
          · cases h; exact ⟨_, rfl⟩
          · cases h

theorem parseMembers_obj (fuel : Nat) :
    ∀ (cs : List Char) (acc : List (String × JSValue)) (v : JSValue) (r : List Char),
      JSON.parseMembers fuel cs acc = some (v, r) → ∃ fs, v = .obj fs := by
  induction fuel with
  | zero => intro cs acc v r h; simp [JSON.parseMembers] at h
  | succ n ih =>
    intro cs acc v r h
    unfold JSON.parseMembers at h
    repeat' split at h
    all_goals first
      | exact ih _ _ _ _ h
      | (cases h; exact ⟨_, rfl⟩)
      | cases h

theorem parseValue_ne_undefined (fuel : Nat) (cs : List Char) (v : JSValue) (r : List Char)
    (h : JSON.parseValue fuel cs = some (v, r)) : v ≠ .undefined := by
  cases fuel with
  | zero => simp [JSON.parseValue] at h
  | succ n =>
    unfold JSON.parseValue at h
    repeat' split at h
    all_goals first
      | (cases h; intro hv; cases hv)
      | (obtain ⟨xs, hx⟩ := parseElems_arr _ _ _ _ _ h; subst hx; intro hv; cases hv)
      | (obtain ⟨xs, hx⟩ := parseMembers_obj _ _ _ _ _ h; subst hx; intro hv; cases hv)
      | cases h

theorem parse_ne_undefined (text : String) (v : JSValue) (h : JSON.parse text = .ok v) :
    v ≠ .undefined := by
  unfold JSON.parse at h
  split at h
  · cases h
  · rename_i w rest hw
    split at h
    · cases h
      exact parseValue_ne_undefined _ _ _ _ hw
    · cases h

/-! ## Reading back what `JSON.stringify` wrote -/

theorem char_eq_ofNat (c : Char) (n : Nat) (h : c.toNat = n) : c = Char.ofNat n := by
  subst h
  exact (Char.ofNat_toNat c).symm

theorem hex4_control (n : Nat) (h : n < 32) :
    JSON.hex4 (Char.ofNat 48) (Char.ofNat 48) (hexDigitLower (n / 16)) (hexDigitLower (n % 16))
      = some n := by
  revert n
  decide

theorem parseStr_escape (e ch : Char) (tail acc : List Char)
    (he : e.toNat ≠ 117) (hs : JSON.simpleEscape e = some ch) :
    JSON.parseStr none (Char.ofNat 92 :: e :: tail) acc = JSON.parseStr none tail (ch :: acc) := by
  rw [JSON.parseStr.eq_def]
  have h1 : ¬ (Char.ofNat 92).toNat = 34 := by decide
  have h2 : (Char.ofNat 92).toNat = 92 := by decide
  simp [h1, h2, he, hs, JSON.flushHigh]

theorem parseStr_unicode (n : Nat) (hn : n < 32) (tail acc : List Char) :
    JSON.parseStr none (Char.ofNat 92 :: Char.ofNat 117 :: Char.ofNat 48 :: Char.ofNat 48
        :: hexDigitLower (n / 16) :: hexDigitLower (n % 16) :: tail) acc
      = JSON.parseStr none tail (Char.ofNat n :: acc) := by
  rw [JSON.parseStr.eq_def]
  have h1 : ¬ (Char.ofNat 92).toNat = 34 := by decide
  have h2 : (Char.ofNat 92).toNat = 92 := by decide
  have h3 : (Char.ofNat 117).toNat = 117 := by decide
  have h4 : ¬ (55296 ≤ n) := by omega
  have h5 : ¬ (56320 ≤ n) := by omega
  simp [h1, h2, h3, hex4_control n hn, h4, h5, JSON.flushHigh]

theorem parseStr_plain (c : Char) (tail acc : List Char)
    (h1 : c.toNat ≠ 34) (h2 : c.toNat ≠ 92) (h3 : ¬ c.toNat < 32) :
    JSON.parseStr none (c :: tail) acc = JSON.parseStr none tail (c :: acc) := by
  rw [JSON.parseStr.eq_def]
  simp [h1, h2, h3, JSON.flushHigh]

theorem parseStr_quoteChar (c : Char) (tail acc : List Char) :
    JSON.parseStr none (JSON.quoteChar c ++ tail) acc = JSON.parseStr none tail (c :: acc) := by
  unfold JSON.quoteChar
  simp only
  split_ifs with h1 h2 h3 h4 h5 h6 h7 h8
  · have hc := char_eq_ofNat c _ h1
    subst hc
    exact parseStr_escape _ _ _ _ (by decide) (by decide)
  · have hc := char_eq_ofNat c _ h2
    subst hc
    exact parseStr_escape _ _ _ _ (by decide) (by decide)
  · have hc := char_eq_ofNat c _ h3
    subst hc
    exact parseStr_escape _ _ _ _ (by decide) (by decide)
  · have hc := char_eq_ofNat c _ h4
    subst hc
    exact parseStr_escape _ _ _ _ (by decide) (by decide)
  · have hc := char_eq_ofNat c _ h5
    subst hc
    exact parseStr_escape _ _ _ _ (by decide) (by decide)
  · have hc := char_eq_ofNat c _ h6
    subst hc
    exact parseStr_escape _ _ _ _ (by decide) (by decide)
  · have hc := char_eq_ofNat c _ h7
    subst hc
    exact parseStr_escape _ _ _ _ (by decide) (by decide)
  · have := parseStr_unicode c.toNat h8 tail acc
    rw [Char.ofNat_toNat] at this
    exact this
  · exact parseStr_plain c tail acc h1 h2 h8

theorem parseStr_quoteChars (cs tail acc : List Char) :
    JSON.parseStr none (cs.flatMap JSON.quoteChar ++ Char.ofNat 34 :: tail) acc
      = some (⟨acc.reverse ++ cs⟩, tail) := by
  induction cs generalizing acc with
  | nil =>
    rw [List.flatMap_nil, List.nil_append, JSON.parseStr.eq_def]
    have h1 : (Char.ofNat 34).toNat = 34 := by decide
    simp [h1, JSON.flushHigh]
  | cons c rest ih =>
    rw [List.flatMap_cons, List.append_assoc, parseStr_quoteChar, ih]
    simp



theorem intercalate_go_data (sep acc : String) (xs : List String) :
    (String.intercalate.go acc sep xs).data
      = acc.data ++ xs.flatMap (fun x => sep.data ++ x.data) := by
  induction xs generalizing acc with
  | nil => simp [String.intercalate.go]
  | cons x rest ih =>
    simp only [String.intercalate.go, ih, String.data_append, List.flatMap_cons,
      List.append_assoc]

theorem encodeStrings_data (x : String) (rest : List String) :
    (encodeStrings (x :: rest)).data
      = Char.ofNat 91 :: (elemsData x rest ++ [Char.ofNat 93]) := by
  unfold encodeStrings elemsData
  simp only [String.intercalate, List.map_cons, String.data_append, intercalate_go_data,
    List.flatMap_map]
  rfl

theorem skipWs_cons (c : Char) (cs : List Char) (h : JSON.isWs c = false) :
    JSON.skipWs (c :: cs) = c :: cs := by
  simp [JSON.skipWs, h]

theorem parseValue_quote (fuel : Nat) (x : String) (tail : List Char) :
    JSON.parseValue (fuel + 1) ((JSON.quote x).data ++ tail) = some (.str x, tail) := by
  unfold JSON.quote
  simp only [List.cons_append, List.append_assoc, List.singleton_append]
  rw [JSON.parseValue.eq_def]
  simp only
  rw [skipWs_cons _ _ (by decide)]
  have h1 : (Char.ofNat 34).toNat = 34 := by decide
  simp only [h1, if_true, parseStr_quoteChars, List.reverse_nil, List.nil_append]

theorem parseElems_strings (rest : List String) :
    ∀ (x : String) (fuel : Nat) (acc : List JSValue) (tail : List Char),
      rest.length + 2 ≤ fuel →
      JSON.parseElems fuel (elemsData x rest ++ Char.ofNat 93 :: tail) acc
        = some (.arr (acc.reverse ++ (x :: rest).map JSValue.str), tail) := by
  induction rest with
  | nil =>
    intro x fuel acc tail hf
    obtain ⟨g, rfl⟩ : ∃ g, fuel = g + 2 := ⟨fuel - 2, by simp at hf; omega⟩
    rw [JSON.parseElems.eq_def]
    simp only [elemsData, List.flatMap_nil, List.append_nil, parseValue_quote]
    rw [skipWs_cons _ _ (by decide)]
    have h1 : ¬ (Char.ofNat 93).toNat = 44 := by decide
    have h2 : (Char.ofNat 93).toNat = 93 := by decide
    simp [h1, h2]
  | cons y ys ih =>
    intro x fuel acc tail hf
    obtain ⟨g, rfl⟩ : ∃ g, fuel = g + 2 := ⟨fuel - 2, by simp at hf; omega⟩
    have hg : ys.length + 2 ≤ g + 1 := by simp at hf; omega
    rw [JSON.parseElems.eq_def]
    have hshape : elemsData x (y :: ys) ++ Char.ofNat 93 :: tail
        = (JSON.quote x).data ++ (Char.ofNat 44 :: (elemsData y ys ++ Char.ofNat 93 :: tail)) := by
      simp [elemsData, List.flatMap_cons]
    simp only [hshape, parseValue_quote]
    rw [skipWs_cons _ _ (by decide)]
    have h1 : (Char.ofNat 44).toNat = 44 := by decide
    simp only [h1, if_true, ih y (g + 1) _ tail hg]
    simp

theorem quote_length (x : String) : 2 ≤ (JSON.quote x).data.length := by
  simp [JSON.quote]

theorem separators_length (rest : List String) :
    rest.length ≤ (rest.flatMap (fun y => Char.ofNat 44 :: (JSON.quote y).data)).length := by
  induction rest with
  | nil => exact Nat.le_refl _
  | cons y ys ih =>
    simp only [List.flatMap_cons, List.length_append, List.length_cons]
    omega

theorem parseValue_array (x : String) (rest : List String) (fuel : Nat)
    (hf : rest.length + 2 ≤ fuel) :
    JSON.parseValue (fuel + 1) (Char.ofNat 91 :: (elemsData x rest ++ [Char.ofNat 93]))
      = some (.arr ((x :: rest).map JSValue.str), []) := by
  have hparse := parseElems_strings rest x fuel [] [] hf
  have hq : elemsData x rest ++ [Char.ofNat 93]
      = Char.ofNat 34 :: ((x.data.flatMap JSON.quoteChar ++ [Char.ofNat 34])
          ++ rest.flatMap (fun y => Char.ofNat 44 :: (JSON.quote y).data)
          ++ [Char.ofNat 93]) := by
    simp [elemsData, JSON.quote]
  rw [JSON.parseValue.eq_def]
  simp only
  rw [skipWs_cons _ _ (by decide)]
  have h1 : ¬ (Char.ofNat 91).toNat = 34 := by decide
  have h2 : (Char.ofNat 91).toNat = 91 := by decide
  simp only [h1, h2, if_true, if_false]
  rw [hq] at hparse ⊢
  rw [skipWs_cons _ _ (by decide)]
  have h3 : ¬ (Char.ofNat 34).toNat = 93 := by decide
  simp only [h3, if_false]
  simpa using hparse

theorem parse_encodeStrings (xs : List String) :
    JSON.parse (encodeStrings xs) = .ok (.arr (xs.map JSValue.str)) := by
  cases xs with
  | nil => rfl
  | cons x rest =>
    unfold JSON.parse
    rw [encodeStrings_data]
    have hlen : rest.length + 2 ≤ (elemsData x rest ++ [Char.ofNat 93]).length + 1 := by
      have := quote_length x
      have hsum := separators_length rest
      simp only [elemsData, List.length_append, List.length_singleton]
      omega
    have hval := parseValue_array x rest _ hlen
    have hval2 : JSON.parseValue
        ((Char.ofNat 91 :: (elemsData x rest ++ [Char.ofNat 93])).length + 1)
        (Char.ofNat 91 :: (elemsData x rest ++ [Char.ofNat 93]))
          = some (.arr ((x :: rest).map JSValue.str), []) := hval
    rw [hval2]
    rfl

/-! ## The recent searches -/

theorem saveRecentSearch_strings (fmt : ℚ → String) (cityName : String)
    (existing : List String) (st : State)
    (h : st.recentSearches = .arr (existing.map JSValue.str)) :
    saveRecentSearch fmt cityName st = .ok { st with
      recentSearches := .arr ((recordSpec cityName existing).map JSValue.str),
      storage := setItem st.storage "recentSearches"
        (encodeStrings (recordSpec cityName existing)) } := by
  simp only [saveRecentSearch, h, updatedSearches_map_str, stringify_strings]

theorem recordSpec_fresh (c : String) (done : List String) (h : c ∉ done) :
    recordSpec c (done.reverse.take 5) = ((done ++ [c]).reverse).take 5 := by
  have hf : (done.reverse.take 5).filter (fun x => x ≠ c) = done.reverse.take 5 := by
    apply List.filter_eq_self.mpr
    intro x hx
    have hx2 : x ∈ done := List.mem_reverse.mp (List.mem_of_mem_take hx)
    have hne : x ≠ c := fun e => h (e ▸ hx2)
    simpa using hne
  unfold recordSpec
  rw [hf]
  simp [List.take_take]

theorem recordAll_from (fmt : ℚ → String) (cs : List String) :
    ∀ (done : List String) (st : State), (done ++ cs).Nodup →
      st.recentSearches = .arr ((done.reverse.take 5).map JSValue.str) →
      ∃ st2, recordAll fmt cs st = .ok st2
        ∧ st2.recentSearches = .arr (((done ++ cs).reverse.take 5).map JSValue.str)
        ∧ (cs ≠ [] → getItem st2.storage "recentSearches"
            = some (encodeStrings ((done ++ cs).reverse.take 5))) := by
  induction cs with
  | nil =>
    intro done st _ h
    exact ⟨st, rfl, by simpa using h, fun hne => absurd rfl hne⟩
  | cons c rest ih =>
    intro done st hnd h
    have hc : c ∉ done := by
      intro hmem
      have := List.nodup_append.mp hnd
      exact this.2.2 hmem (List.mem_cons_self _ _)
    have hstep := saveRecentSearch_strings fmt c (done.reverse.take 5) st h
    rw [recordSpec_fresh c done hc] at hstep
    have hnd2 : ((done ++ [c]) ++ rest).Nodup := by simpa using hnd
    obtain ⟨st2, hrun, hlist, hstore⟩ := ih (done ++ [c])
      { st with
        recentSearches := .arr ((((done ++ [c]).reverse).take 5).map JSValue.str),
        storage := setItem st.storage "recentSearches"
          (encodeStrings (((done ++ [c]).reverse).take 5)) } hnd2 rfl
    refine ⟨st2, ?_, by simpa using hlist, ?_⟩
    · simp only [recordAll, hstep]
      exact hrun
    · intro _
      cases rest with
      | nil =>
        simp only [recordAll] at hrun
        cases hrun
        simpa using getItem_setItem_same _ _ _
      | cons r rs =>
        simpa using hstore (List.cons_ne_nil _ _)

/-- Claim C1. For a recent-search list `existing` of strings and a city name,
`saveRecentSearch` succeeds; the new in-memory list is the city name followed
by the members of `existing` other than it, in their order, cut to five; the
entry `recentSearches` of the storage holds the JSON text of that same list;
the other storage entries and the other state variables are as before. -/
theorem saveRecentSearch_records (fmt : ℚ → String) (cityName : String)
    (existing : List String) (st : State)
    (h : st.recentSearches = .arr (existing.map JSValue.str)) :
    ∃ st2, saveRecentSearch fmt cityName st = .ok st2
      ∧ st2.recentSearches = .arr ((recordSpec cityName existing).map JSValue.str)
      ∧ recordSpec cityName existing
          = (cityName :: existing.filter (fun c => c ≠ cityName)).take 5
      ∧ getItem st2.storage "recentSearches"
          = some (encodeStrings (recordSpec cityName existing))
      ∧ JSON.parse (encodeStrings (recordSpec cityName existing))
          = .ok (.arr ((recordSpec cityName existing).map JSValue.str))
      ∧ (∀ key, key ≠ "recentSearches" → getItem st2.storage key = getItem st.storage key)
      ∧ st2.city = st.city ∧ st2.weather = st.weather ∧ st2.loading = st.loading
      ∧ st2.error = st.error ∧ st2.requests = st.requests := by
  refine ⟨_, saveRecentSearch_strings fmt cityName existing st h, ?_⟩
  refine ⟨rfl, rfl, getItem_setItem_same _ _ _, parse_encodeStrings _, ?_,
    rfl, rfl, rfl, rfl, rfl⟩
  intro key hkey
  exact getItem_setItem_other _ _ _ _ hkey

theorem saveRecentSearch_records_witness :
    ∃ st2, saveRecentSearch (fun _ => "") "Paris"
        { State.initial [] with
          recentSearches := .arr (["Oslo", "Paris", "Rome"].map JSValue.str) } = .ok st2
      ∧ st2.recentSearches = .arr ((recordSpec "Paris" ["Oslo", "Paris", "Rome"]).map JSValue.str)
      ∧ recordSpec "Paris" ["Oslo", "Paris", "Rome"]
          = ("Paris" :: ["Oslo", "Paris", "Rome"].filter (fun c => c ≠ "Paris")).take 5
      ∧ getItem st2.storage "recentSearches"
          = some (encodeStrings (recordSpec "Paris" ["Oslo", "Paris", "Rome"]))
      ∧ JSON.parse (encodeStrings (recordSpec "Paris" ["Oslo", "Paris", "Rome"]))
          = .ok (.arr ((recordSpec "Paris" ["Oslo", "Paris", "Rome"]).map JSValue.str))
      ∧ (∀ key, key ≠ "recentSearches" → getItem st2.storage key = getItem [] key)
      ∧ st2.city = "" ∧ st2.weather = .null ∧ st2.loading = false
      ∧ st2.error = .str "" ∧ st2.requests = [] :=
  saveRecentSearch_records (fun _ => "") "Paris" ["Oslo", "Paris", "Rome"]
    { State.initial [] with
      recentSearches := .arr (["Oslo", "Paris", "Rome"].map JSValue.str) } rfl

/-- Claim C10. Recording pairwise distinct city names `cs`, in order, from the
empty list succeeds and leaves the names in reverse order of recording, cut to
five: `min n 5` elements for `n` names. For six names the result is the last
five, most recent first, the first one evicted. The storage entry holds the
JSON text of the same list once a name was recorded. -/
theorem recordAll_distinct (fmt : ℚ → String) (cs : List String) (st : State)
    (hnd : cs.Nodup) (h0 : st.recentSearches = .arr []) :
    ∃ st2, recordAll fmt cs st = .ok st2
      ∧ st2.recentSearches = .arr ((cs.reverse.take 5).map JSValue.str)
      ∧ (cs.reverse.take 5).length = min cs.length 5
      ∧ (cs ≠ [] → getItem st2.storage "recentSearches"
          = some (encodeStrings (cs.reverse.take 5)))
      ∧ (∀ c1 c2 c3 c4 c5 c6 : String, cs = [c1, c2, c3, c4, c5, c6] →
          st2.recentSearches
            = .arr [.str c6, .str c5, .str c4, .str c3, .str c2]) := by
  obtain ⟨st2, hrun, hlist, hstore⟩ :=
    recordAll_from fmt cs [] st (by simpa using hnd) (by simpa using h0)
  simp only [List.nil_append] at hlist hstore
  refine ⟨st2, hrun, hlist, ?_, hstore, ?_⟩
  · simp [List.length_take, Nat.min_comm]
  · intro c1 c2 c3 c4 c5 c6 hcs
    rw [hlist, hcs]
    rfl

theorem recordAll_distinct_witness :
    ∃ st2, recordAll (fun _ => "") ["Rome", "Oslo", "Paris", "Lima", "Cairo", "Tokyo"]
        (State.initial []) = .ok st2
      ∧ st2.recentSearches
          = .arr ((["Rome", "Oslo", "Paris", "Lima", "Cairo", "Tokyo"].reverse.take 5).map
              JSValue.str)
      ∧ (["Rome", "Oslo", "Paris", "Lima", "Cairo", "Tokyo"].reverse.take 5).length
          = min ["Rome", "Oslo", "Paris", "Lima", "Cairo", "Tokyo"].length 5
      ∧ (["Rome", "Oslo", "Paris", "Lima", "Cairo", "Tokyo"] ≠ [] →
          getItem st2.storage "recentSearches"
            = some (encodeStrings
                (["Rome", "Oslo", "Paris", "Lima", "Cairo", "Tokyo"].reverse.take 5)))
      ∧ (∀ c1 c2 c3 c4 c5 c6 : String,
          ["Rome", "Oslo", "Paris", "Lima", "Cairo", "Tokyo"] = [c1, c2, c3, c4, c5, c6] →
          st2.recentSearches
            = .arr [.str c6, .str c5, .str c4, .str c3, .str c2]) :=
  recordAll_distinct (fun _ => "") ["Rome", "Oslo", "Paris", "Lima", "Cairo", "Tokyo"]
    (State.initial []) (by decide) rfl

/-- Claim C2, as stated, fails: with the text `["a","a"]` stored under
`recentSearches`, the state right after the load is reachable and its list
holds the string `a` twice. -/
theorem reachable_duplicate :
    ∃ st : State,
      (∀ fmt, Reachable fmt [("recentSearches", "[\"a\",\"a\"]")] st)
      ∧ st.recentSearches = .arr [.str "a", .str "a"] ∧ ¬ RecentOk st := by
  refine ⟨{ State.initial [("recentSearches", "[\"a\",\"a\"]")] with
            recentSearches := .arr [.str "a", .str "a"] }, ?_, rfl, ?_⟩
  · intro fmt
    exact Reachable.loaded _ rfl
  · rintro ⟨xs, hxs, _, hnd⟩
    have hmap : [JSValue.str "a", JSValue.str "a"] = xs.map JSValue.str := by
      injection hxs
    match xs, hmap, hnd with
    | [x, y], hmap, hnd =>
      simp only [List.map_cons, List.map_nil, List.cons.injEq, JSValue.str.injEq,
        and_true] at hmap
      obtain ⟨hx, hy⟩ := hmap
      subst hx
      subst hy
      simp at hnd
    | [], hmap, _ => simp at hmap
    | [_], hmap, _ => simp at hmap
    | _ :: _ :: _ :: _, hmap, _ => simp at hmap

/-- Claim C2, amended. When the entry `recentSearches` of the storage is absent,
empty, or the JSON text of at most five pairwise distinct strings, every state
reached by the load followed by any calls of `saveRecentSearch` has a list of
at most five strings, none twice; and the storage of that state meets the same
condition again. -/
theorem reachable_recentOk (fmt : ℚ → String) (storage : List (String × String))
    (hstored : StoredOk storage) (st : State) (hreach : Reachable fmt storage st) :
    RecentOk st ∧ StoredOk st.storage := by
  induction hreach with
  | loaded st0 hload =>
    have hkeep : st0.storage = storage := by
      unfold loadRecentSearches at hload
      simp only [State.initial] at hload
      split at hload
      · cases hload
        rfl
      · split at hload
        · cases hload
          rfl
        · split at hload
          · cases hload
          · cases hload
            rfl
    refine ⟨?_, hkeep ▸ hstored⟩
    unfold StoredOk at hstored
    unfold loadRecentSearches at hload
    simp only [State.initial] at hload
    cases hget : getItem storage "recentSearches" with
    | none =>
      simp only [hget] at hload
      cases hload
      exact ⟨[], rfl, by simp, List.nodup_nil⟩
    | some saved =>
      simp only [hget] at hload hstored
      rcases hstored with hempty | ⟨xs, hparse, hlen, hnd⟩
      · subst hempty
        simp at hload
        cases hload
        exact ⟨[], rfl, by simp, List.nodup_nil⟩
      · by_cases he : saved.data.isEmpty = true
        · simp only [he, if_true] at hload
          cases hload
          exact ⟨[], rfl, by simp, List.nodup_nil⟩
        · simp only [he, hparse] at hload
          simp at hload
          cases hload
          exact ⟨xs, rfl, hlen, hnd⟩
  | saved c st1 st2 _ hsave ih =>
    obtain ⟨⟨xs, hxs, _, hnd⟩, _⟩ := ih
    rw [saveRecentSearch_strings fmt c xs st1 hxs] at hsave
    cases hsave
    refine ⟨⟨recordSpec c xs, rfl, recordSpec_length_le c xs, recordSpec_nodup c xs hnd⟩, ?_⟩
    unfold StoredOk
    simp only [getItem_setItem_same]
    exact Or.inr ⟨recordSpec c xs, parse_encodeStrings _, recordSpec_length_le c xs,
      recordSpec_nodup c xs hnd⟩

theorem reachable_recentOk_witness :
    StoredOk [("recentSearches", "[\"Oslo\",\"Rome\"]")]
      ∧ Reachable (fun _ => "") [("recentSearches", "[\"Oslo\",\"Rome\"]")]
          { State.initial [("recentSearches", "[\"Oslo\",\"Rome\"]")] with
            recentSearches := .arr [.str "Oslo", .str "Rome"] }
      ∧ RecentOk
          { State.initial [("recentSearches", "[\"Oslo\",\"Rome\"]")] with
            recentSearches := .arr [.str "Oslo", .str "Rome"] }
      ∧ StoredOk [("recentSearches", "[\"Oslo\",\"Rome\"]")] :=
  have hstored : StoredOk [("recentSearches", "[\"Oslo\",\"Rome\"]")] :=
    Or.inr ⟨["Oslo", "Rome"], rfl, by decide, by decide⟩
  have hreach : Reachable (fun _ => "") [("recentSearches", "[\"Oslo\",\"Rome\"]")]
      { State.initial [("recentSearches", "[\"Oslo\",\"Rome\"]")] with
        recentSearches := .arr [.str "Oslo", .str "Rome"] } :=
    Reachable.loaded _ rfl
  ⟨hstored, hreach, reachable_recentOk _ _ hstored _ hreach⟩

/-! ## The load effect -/

theorem loadRecentSearches_absent (st : State)
    (h : getItem st.storage "recentSearches" = none) :
    loadRecentSearches st = .ok st := by
  simp [loadRecentSearches, h]

theorem loadRecentSearches_parsed (st : State) (saved : String) (v : JSValue)
    (h : getItem st.storage "recentSearches" = some saved) (hne : saved ≠ "")
    (hv : JSON.parse saved = .ok v) :
    loadRecentSearches st = .ok { st with recentSearches := v } := by
  have hdata : saved.data.isEmpty = false := by
    cases hd : saved.data with
    | nil => exact absurd (String.ext hd) hne
    | cons c cs => rfl
  simp [loadRecentSearches, h, hdata, hv]

/-- Claim C7 on a stored text that is not JSON: `Paris,London` under the key
`recentSearches` makes `JSON.parse` raise, and the load effect ends with that
SyntaxError instead of an empty list. -/
theorem loadRecentSearches_raises :
    JSON.parse "Paris,London" = .error .jsonError
      ∧ loadRecentSearches (State.initial [("recentSearches", "Paris,London")])
          = .error .jsonError :=
  ⟨rfl, rfl⟩

/-! ## fetchWeather -/

theorem trim_data_isEmpty (c : String) : (trim c).data.isEmpty = true ↔ trim c = "" := by
  constructor
  · intro h
    apply String.ext
    cases hd : (trim c).data with
    | nil => rfl
    | cons x xs => rw [hd] at h; cases h
  · intro h
    rw [h]
    rfl

theorem fetchWeather_blank_eq (fmt : ℚ → String) (c : String) (net : FetchOutcome)
    (st : State) (h : trim c = "") :
    fetchWeather fmt c net st = { st with error := .str msgEmptyInput } := by
  unfold fetchWeather
  rw [if_pos ((trim_data_isEmpty c).mpr h)]

theorem fetchWeather_nonblank_eq (fmt : ℚ → String) (c : String) (net : FetchOutcome)
    (st : State) (h : trim c ≠ "") :
    fetchWeather fmt c net st =
      { (match fetchWeatherTry fmt c net
            { st with loading := true, error := .str "",
                      requests := st.requests ++ [weatherUrl c] } with
          | (s, none) => s
          | (s, some _) =>
            { s with error := .str msgUnreachable, weather := .null })
        with loading := false } := by
  unfold fetchWeather
  rw [if_neg (fun he => h ((trim_data_isEmpty c).mp he))]

/-- Claim C3. For a city name whose trim is empty, `fetchWeather` sets the error
to `Please enter a city name` and changes nothing else: no URL is requested,
and `loading`, `weather`, the recent searches, the storage and `city` are as
before. -/
theorem fetchWeather_blank (fmt : ℚ → String) (c : String) (net : FetchOutcome)
    (st : State) (h : trim c = "") :
    (fetchWeather fmt c net st).error = .str "Please enter a city name"
      ∧ (fetchWeather fmt c net st).requests = st.requests
      ∧ (fetchWeather fmt c net st).loading = st.loading
      ∧ (fetchWeather fmt c net st).weather = st.weather
      ∧ (fetchWeather fmt c net st).recentSearches = st.recentSearches
      ∧ (fetchWeather fmt c net st).storage = st.storage
      ∧ (fetchWeather fmt c net st).city = st.city := by
  rw [fetchWeather_blank_eq fmt c net st h]
  exact ⟨rfl, rfl, rfl, rfl, rfl, rfl, rfl⟩

theorem fetchWeather_blank_witness :
    trim " \t " = ""
      ∧ (fetchWeather (fun _ => "") " \t " (.response 200 "null") (State.initial [])).error
          = .str "Please enter a city name"
      ∧ (fetchWeather (fun _ => "") " \t " (.response 200 "null") (State.initial [])).requests
          = (State.initial []).requests
      ∧ (fetchWeather (fun _ => "") " \t " (.response 200 "null") (State.initial [])).loading
          = (State.initial []).loading
      ∧ (fetchWeather (fun _ => "") " \t " (.response 200 "null") (State.initial [])).weather
          = (State.initial []).weather
      ∧ (fetchWeather (fun _ => "") " \t " (.response 200 "null")
            (State.initial [])).recentSearches = (State.initial []).recentSearches
      ∧ (fetchWeather (fun _ => "") " \t " (.response 200 "null") (State.initial [])).storage
          = (State.initial []).storage
      ∧ (fetchWeather (fun _ => "") " \t " (.response 200 "null") (State.initial [])).city
          = (State.initial []).city :=
  ⟨by decide, fetchWeather_blank (fun _ => "") " \t " (.response 200 "null")
    (State.initial []) (by decide)⟩

theorem saveRecentSearch_fields (fmt : ℚ → String) (c : String) (st st2 : State)
    (h : saveRecentSearch fmt c st = .ok st2) :
    st2.error = st.error ∧ st2.weather = st.weather ∧ st2.loading = st.loading
      ∧ st2.requests = st.requests ∧ st2.city = st.city := by
  unfold saveRecentSearch at h
  split at h
  · cases h
    exact ⟨rfl, rfl, rfl, rfl, rfl⟩
  · cases h

theorem fetchWeatherTry_cases (fmt : ℚ → String) (c : String) (net : FetchOutcome)
    (st : State) :
    (∃ s e, fetchWeatherTry fmt c net st = (s, some e)
        ∧ s.recentSearches = st.recentSearches ∧ s.storage = st.storage
        ∧ s.requests = st.requests ∧ s.city = st.city)
      ∨ (∃ s, fetchWeatherTry fmt c net st = (s, none) ∧ s.error = st.error
          ∧ s.requests = st.requests ∧ s.city = st.city
          ∧ ∃ status body, net = .response status body ∧ responseOk status = true)
      ∨ (∃ s, fetchWeatherTry fmt c net st = (s, none) ∧ s.weather = .null
          ∧ s.recentSearches = st.recentSearches ∧ s.storage = st.storage
          ∧ s.requests = st.requests ∧ s.city = st.city
          ∧ ∃ status body, net = .response status body ∧ responseOk status = false) := by
  unfold fetchWeatherTry
  cases net with
  | networkFailure => exact Or.inl ⟨_, _, rfl, rfl, rfl, rfl, rfl⟩
  | response status body =>
    simp only
    cases JSON.parse body with
    | error e => exact Or.inl ⟨_, _, rfl, rfl, rfl, rfl, rfl⟩
    | ok data =>
      simp only
      by_cases hok : responseOk status = true
      · simp only [hok, if_true]
        cases getField data "temperature" with
        | error e => exact Or.inl ⟨_, _, rfl, rfl, rfl, rfl, rfl⟩
        | ok t =>
          simp only
          cases hsave : saveRecentSearch fmt c { st with weather := data } with
          | error e => exact Or.inl ⟨_, _, rfl, rfl, rfl, rfl, rfl⟩
          | ok st2 =>
            obtain ⟨he, _, _, hr, hc⟩ := saveRecentSearch_fields fmt c _ st2 hsave
            exact Or.inr (Or.inl ⟨st2, rfl, he, hr, hc, status, body, rfl, hok⟩)
      · have hok2 : responseOk status = false := by simpa using hok
        simp only [hok2]
        cases getField data "message" with
        | error e => exact Or.inl ⟨_, _, rfl, rfl, rfl, rfl, rfl⟩
        | ok m =>
          exact Or.inr (Or.inr ⟨_, rfl, rfl, rfl, rfl, rfl, rfl, status, body, rfl, hok2⟩)

/-- Claim C9. After `fetchWeather` with a non-blank city name, whatever the
outcome of the request and whatever the state before, the error is the empty
string or the weather is `null`: never a non-empty error together with a
weather. -/
theorem fetchWeather_exclusive (fmt : ℚ → String) (c : String) (net : FetchOutcome)
    (st : State) (h : trim c ≠ "") :
    ¬ ((fetchWeather fmt c net st).error ≠ .str ""
        ∧ (fetchWeather fmt c net st).weather ≠ .null) := by
  rw [fetchWeather_nonblank_eq fmt c net st h]
  rintro ⟨herr, hw⟩
  rcases fetchWeatherTry_cases fmt c net
      { st with loading := true, error := .str "",
                requests := st.requests ++ [weatherUrl c] } with
    ⟨s, e, hs, _⟩ | ⟨s, hs, he, _⟩ | ⟨s, hs, hnull, _⟩
  · rw [hs] at hw
    exact hw rfl
  · rw [hs] at herr
    exact herr he
  · rw [hs] at hw
    exact hw hnull

theorem fetchWeather_exclusive_witness :
    trim "Paris" ≠ ""
      ∧ ¬ ((fetchWeather (fun _ => "") "Paris" (.response 200 "[1]") (State.initial [])).error
            ≠ .str ""
          ∧ (fetchWeather (fun _ => "") "Paris" (.response 200 "[1]")
              (State.initial [])).weather ≠ .null) :=
  ⟨by decide, fetchWeather_exclusive (fun _ => "") "Paris" (.response 200 "[1]")
    (State.initial []) (by decide)⟩

/-- Claim C4, as stated, fails for the empty input: after a successful search
for Paris, `fetchWeather` with a blank city name leaves the weather of Paris in
place. -/
theorem fetchWeather_blank_keeps_weather :
    trim " " = ""
      ∧ ∀ (fmt : ℚ → String) (net : FetchOutcome),
        (fetchWeather fmt " " net
          (fetchWeather fmt "Paris" (.response 200 "\x7b\"city\":\"Paris\"\x7d")
            (State.initial []))).weather = .obj [("city", .str "Paris")]
        ∧ (fetchWeather fmt " " net
          (fetchWeather fmt "Paris" (.response 200 "\x7b\"city\":\"Paris\"\x7d")
            (State.initial []))).weather ≠ .null := by
  refine ⟨by decide, fun fmt net => ?_⟩
  have h : (fetchWeather fmt " " net
      (fetchWeather fmt "Paris" (.response 200 "\x7b\"city\":\"Paris\"\x7d")
        (State.initial []))).weather = .obj [("city", .str "Paris")] := rfl
  refine ⟨h, ?_⟩
  rw [h]
  intro hnull
  cases hnull

/-- Claim C4, amended. For the empty input `fetchWeather` leaves `weather` and
`loading` as they were. For a non-blank city name and a request that ends in a
transport failure or a response that is not 2xx, whatever the state before,
`fetchWeather` ends with `weather` equal to `null` and `loading` false. -/
theorem fetchWeather_failure (fmt : ℚ → String) (c : String) (net : FetchOutcome)
    (st : State) :
    (trim c = "" →
        (fetchWeather fmt c net st).weather = st.weather
          ∧ (fetchWeather fmt c net st).loading = st.loading)
      ∧ (trim c ≠ "" → net.failed = true →
          (fetchWeather fmt c net st).weather = .null
            ∧ (fetchWeather fmt c net st).loading = false) := by
  constructor
  · intro h
    rw [fetchWeather_blank_eq fmt c net st h]
    exact ⟨rfl, rfl⟩
  · intro h hfail
    rw [fetchWeather_nonblank_eq fmt c net st h]
    refine ⟨?_, rfl⟩
    rcases fetchWeatherTry_cases fmt c net
        { st with loading := true, error := .str "",
                  requests := st.requests ++ [weatherUrl c] } with
      ⟨s, e, hs, _⟩ | ⟨s, hs, _, _, _, status, body, hnet, hok⟩ | ⟨s, hs, hnull, _⟩
    · rw [hs]
    · subst hnet
      simp only [FetchOutcome.failed, responseOk] at hfail hok
      simp [hok] at hfail
    · rw [hs]
      exact hnull

theorem fetchWeather_failure_witness :
    (trim " " = "" ∧ trim "Nowhere" ≠ ""
        ∧ (FetchOutcome.response 404 "not found").failed = true
        ∧ FetchOutcome.networkFailure.failed = true)
      ∧ ((fetchWeather (fun _ => "") " " .networkFailure (State.initial [])).weather
            = (State.initial []).weather
          ∧ (fetchWeather (fun _ => "") " " .networkFailure (State.initial [])).loading
            = (State.initial []).loading)
      ∧ ((fetchWeather (fun _ => "") "Nowhere" (.response 404 "not found")
            (State.initial [])).weather = .null
          ∧ (fetchWeather (fun _ => "") "Nowhere" (.response 404 "not found")
            (State.initial [])).loading = false)
      ∧ ((fetchWeather (fun _ => "") "Nowhere" .networkFailure (State.initial [])).weather
            = .null
          ∧ (fetchWeather (fun _ => "") "Nowhere" .networkFailure (State.initial [])).loading
            = false) :=
  ⟨⟨by decide, by decide, by decide, by decide⟩,
    (fetchWeather_failure (fun _ => "") " " .networkFailure (State.initial [])).1 (by decide),
    (fetchWeather_failure (fun _ => "") "Nowhere" (.response 404 "not found")
      (State.initial [])).2 (by decide) (by decide),
    (fetchWeather_failure (fun _ => "") "Nowhere" .networkFailure
      (State.initial [])).2 (by decide) (by decide)⟩

theorem fetchWeather_success (fmt : ℚ → String) (c : String) (status : Nat) (body : String)
    (d : JSValue) (xs : List JSValue) (st : State) (hc : trim c ≠ "")
    (hs : responseOk status = true) (hp : JSON.parse body = .ok d) (hd : d ≠ .null)
    (hr : st.recentSearches = .arr xs) :
    fetchWeather fmt c (.response status body) st =
      { st with
        weather := d, error := .str "", loading := false,
        requests := st.requests ++ [weatherUrl c],
        recentSearches := .arr (updatedSearches c xs),
        storage := setItem st.storage "recentSearches"
          (JSON.stringify fmt (updatedSearches c xs)) } := by
  rw [fetchWeather_nonblank_eq fmt c _ st hc]
  have hund : d ≠ .undefined := parse_ne_undefined body d hp
  have hget : ∃ t, getField d "temperature" = .ok t := by
    cases d with
    | undefined => exact absurd rfl hund
    | null => exact absurd rfl hd
    | bool b => exact ⟨_, rfl⟩
    | num n => exact ⟨_, rfl⟩
    | str s => exact ⟨_, rfl⟩
    | arr ys => exact ⟨_, rfl⟩
    | obj fs => exact ⟨_, rfl⟩
  obtain ⟨t, ht⟩ := hget
  simp only [fetchWeatherTry, hp, hs, if_true, ht, saveRecentSearch, hr]

/-- Claim C5 on the body `null`: the status is 200 and the body parses to
`null`, yet `fetchWeather` ends with the message of an unreachable service as
its error, and Paris is recorded neither in the list nor in the storage. The
read `data.temperature` of the debug log on line 43 raises a TypeError, which
the `catch` block takes for a transport failure. -/
theorem fetchWeather_null_body :
    responseOk 200 = true ∧ JSON.parse "null" = .ok .null ∧ trim "Paris" ≠ ""
      ∧ ∀ fmt : ℚ → String,
        (fetchWeather fmt "Paris" (.response 200 "null") (State.initial [])).error
            = .str
              "Unable to connect to weather service. Make sure the Ballerina API is running on port 8080."
          ∧ (fetchWeather fmt "Paris" (.response 200 "null") (State.initial [])).error
            ≠ .str ""
          ∧ (fetchWeather fmt "Paris" (.response 200 "null")
              (State.initial [])).recentSearches = .arr []
          ∧ (fetchWeather fmt "Paris" (.response 200 "null") (State.initial [])).storage = [] := by
  refine ⟨rfl, rfl, by decide, fun fmt => ⟨rfl, ?_, rfl, rfl⟩⟩
  have h : (fetchWeather fmt "Paris" (.response 200 "null") (State.initial [])).error
      = .str msgUnreachable := rfl
  rw [h]
  intro he
  injection he with he
  revert he
  decide

/-- Claim C6, as stated, fails for an empty message: on a 404 whose body is
`{"message":""}` the field `message` is present, and the error is the generic
string, not the empty message. -/
theorem fetchWeather_empty_message :
    JSON.parse "\x7b\"message\":\"\"\x7d" = .ok (.obj [("message", .str "")])
      ∧ getField (.obj [("message", .str "")]) "message" = .ok (.str "")
      ∧ ∀ fmt : ℚ → String,
        (fetchWeather fmt "Nowhere" (.response 404 "\x7b\"message\":\"\"\x7d")
            (State.initial [])).error = .str "Failed to fetch weather data"
          ∧ (fetchWeather fmt "Nowhere" (.response 404 "\x7b\"message\":\"\"\x7d")
            (State.initial [])).error ≠ .str "" := by
  refine ⟨rfl, rfl, fun fmt => ⟨rfl, ?_⟩⟩
  have h : (fetchWeather fmt "Nowhere" (.response 404 "\x7b\"message\":\"\"\x7d")
      (State.initial [])).error = .str msgGeneric := rfl
  rw [h]
  intro he
  injection he with he
  revert he
  decide

/-- Claim C6, amended. For a non-blank city name and a response that is not 2xx,
`fetchWeather` ends with `weather` equal to `null` and the recent searches and
the storage unchanged. When the body parses to a value other than `null`, the
error is the `message` field of the body if that field is truthy (present and
not the empty string, zero, `false` or `null`) and the generic string
`Failed to fetch weather data` otherwise. -/
theorem fetchWeather_service_error (fmt : ℚ → String) (c : String) (status : Nat)
    (body : String) (st : State) (hc : trim c ≠ "") (hs : responseOk status = false) :
    ((fetchWeather fmt c (.response status body) st).weather = .null
        ∧ (fetchWeather fmt c (.response status body) st).recentSearches = st.recentSearches
        ∧ (fetchWeather fmt c (.response status body) st).storage = st.storage)
      ∧ ∀ data, JSON.parse body = .ok data → data ≠ .null →
          ∃ m, getField data "message" = .ok m
            ∧ (fetchWeather fmt c (.response status body) st).error
                = if truthy m = true then m else .str "Failed to fetch weather data" := by
  rw [fetchWeather_nonblank_eq fmt c _ st hc]
  constructor
  · rcases fetchWeatherTry_cases fmt c (.response status body)
        { st with loading := true, error := .str "",
                  requests := st.requests ++ [weatherUrl c] } with
      ⟨s, e, hs1, hr, hst, _⟩ | ⟨s, hs1, _, _, _, status2, body2, hnet, hok⟩
        | ⟨s, hs1, hnull, hr, hst, _⟩
    · rw [hs1]
      exact ⟨rfl, hr, hst⟩
    · cases hnet
      rw [hs] at hok
      cases hok
    · rw [hs1]
      exact ⟨hnull, hr, hst⟩
  · intro data hp hd
    have hund : data ≠ .undefined := parse_ne_undefined body data hp
    have hget : ∃ m, getField data "message" = .ok m := by
      cases data with
      | undefined => exact absurd rfl hund
      | null => exact absurd rfl hd
      | bool b => exact ⟨_, rfl⟩
      | num n => exact ⟨_, rfl⟩
      | str s => exact ⟨_, rfl⟩
      | arr ys => exact ⟨_, rfl⟩
      | obj fs => exact ⟨_, rfl⟩
    obtain ⟨m, hm⟩ := hget
    refine ⟨m, hm, ?_⟩
    simp only [fetchWeatherTry, hp, hs, hm]
    rfl

theorem fetchWeather_service_error_witness :
    (trim "Nowhere" ≠ "" ∧ responseOk 404 = false)
      ∧ ((fetchWeather (fun _ => "") "Nowhere"
            (.response 404 "\x7b\"message\":\"city not found\"\x7d")
            (State.initial [])).weather = .null
        ∧ (fetchWeather (fun _ => "") "Nowhere"
            (.response 404 "\x7b\"message\":\"city not found\"\x7d")
            (State.initial [])).recentSearches = (State.initial []).recentSearches
        ∧ (fetchWeather (fun _ => "") "Nowhere"
            (.response 404 "\x7b\"message\":\"city not found\"\x7d")
            (State.initial [])).storage = (State.initial []).storage)
      ∧ ∃ m, getField (.obj [("message", .str "city not found")]) "message" = .ok m
          ∧ (fetchWeather (fun _ => "") "Nowhere"
              (.response 404 "\x7b\"message\":\"city not found\"\x7d")
              (State.initial [])).error
            = if truthy m = true then m else .str "Failed to fetch weather data" :=
  ⟨⟨by decide, by decide⟩,
    (fetchWeather_service_error (fun _ => "") "Nowhere" 404
      "\x7b\"message\":\"city not found\"\x7d" (State.initial []) (by decide) (by decide)).1,
    (fetchWeather_service_error (fun _ => "") "Nowhere" 404
      "\x7b\"message\":\"city not found\"\x7d" (State.initial []) (by decide) (by decide)).2
      (.obj [("message", .str "city not found")]) rfl (fun h => by cases h)⟩

/-! ## The temperature span -/

theorem round_nearest (q : ℚ) :
    ∃ k : ℤ, Math.round (.finite q) = .finite k ∧ (k : ℚ) - 1 / 2 ≤ q ∧ q < k + 1 / 2 := by
  refine ⟨⌊q + 1 / 2⌋, rfl, ?_, ?_⟩
  · have := Int.floor_le (q + 1 / 2)
    linarith
  · have := Int.lt_floor_add_one (q + 1 / 2)
    linarith

theorem numberToString_int (fmt : ℚ → String) (k : ℤ) (h : k.natAbs < 2 ^ 53) :
    numberToString fmt (.finite k) = toString k := by
  have h2 : k.natAbs < 9007199254740992 := by simpa using h
  simp [numberToString]
  intro hge
  omega

theorem getField_of_truthy (w : JSValue) (key : String) (hw : truthy w = true) :
    ∃ t, getField w key = .ok t := by
  cases w with
  | undefined => cases hw
  | null => cases hw
  | bool b => exact ⟨_, rfl⟩
  | num n => exact ⟨_, rfl⟩
  | str s => exact ⟨_, rfl⟩
  | arr ys => exact ⟨_, rfl⟩
  | obj fs => exact ⟨_, rfl⟩

theorem temperatureSpan_number (w : JSValue) (n : JSNum)
    (h : getField w "temperature" = .ok (.num n)) (hn : n ≠ .nan) :
    temperatureSpan w = .ok [.num (Math.round n), .text "°C"] := by
  simp only [temperatureSpan, h, hn, ne_eq, not_false_eq_true, if_true]

theorem temperatureSpan_other (w t : JSValue) (h : getField w "temperature" = .ok t)
    (hn : ∀ n, t = .num n → n = .nan) :
    temperatureSpan w = .ok [.text "N/A", .text "°C"] := by
  cases t with
  | num n =>
    have := hn n rfl
    subst this
    simp [temperatureSpan, h]
  | undefined => simp only [temperatureSpan, h]
  | null => simp only [temperatureSpan, h]
  | bool b => simp only [temperatureSpan, h]
  | str s => simp only [temperatureSpan, h]
  | arr ys => simp only [temperatureSpan, h]
  | obj fs => simp only [temperatureSpan, h]

theorem toDouble_18_6 :
    toDouble false 186 10 = .finite (2617717283409101 / 140737488355328) := by
  decide!

theorem round_18_6 :
    Math.round (.finite (2617717283409101 / 140737488355328)) = .finite 19 := by
  decide!

/-- Claim C8. For a weather `w` that is rendered (a truthy value), the text of
the temperature span is computed without an exception. When `w.temperature` is
a number other than NaN, the text is that number rounded by `Math.round`,
printed, followed by `°C`; otherwise (the field absent, not a number, or NaN)
it is `N/A°C`. For a finite `q`, `Math.round` yields the integer `k` with
`k - 1/2 ≤ q < k + 1/2`, the nearest integer with a half rounded up, printed
as its decimal digits below `2 ^ 53`. The body with temperature `18.6` renders
as `19°C`. -/
theorem temperatureText_spec (fmt : ℚ → String) (w : JSValue) (hw : truthy w = true) :
    (∃ s, temperatureText fmt w = .ok s)
      ∧ (∀ n, getField w "temperature" = .ok (.num n) → n ≠ .nan →
          temperatureText fmt w = .ok (numberToString fmt (Math.round n) ++ "°C"))
      ∧ ((∀ n, getField w "temperature" = .ok (.num n) → n = .nan) →
          temperatureText fmt w = .ok "N/A°C")
      ∧ (∀ q : ℚ, ∃ k : ℤ, Math.round (.finite q) = .finite k
          ∧ (k : ℚ) - 1 / 2 ≤ q ∧ q < k + 1 / 2
          ∧ (k.natAbs < 2 ^ 53 → numberToString fmt (.finite k) = toString k))
      ∧ (∃ v, JSON.parse
            "\x7b\"city\":\"Paris\",\"temperature\":18.6,\"description\":\"clear sky\"\x7d"
              = .ok v
          ∧ temperatureText fmt v = .ok "19°C") := by
  obtain ⟨t, ht⟩ := getField_of_truthy w "temperature" hw
  have hnum : ∀ n, getField w "temperature" = .ok (.num n) → n ≠ .nan →
      temperatureText fmt w = .ok (numberToString fmt (Math.round n) ++ "°C") := by
    intro n hn hnan
    simp only [temperatureText, temperatureSpan_number w n hn hnan]
    simp [String.join, Child.toText]
  have hother : (∀ n, getField w "temperature" = .ok (.num n) → n = .nan) →
      temperatureText fmt w = .ok "N/A°C" := by
    intro hall
    have hspan := temperatureSpan_other w t ht (fun n hn => hall n (hn ▸ ht))
    simp only [temperatureText, hspan]
    rfl
  refine ⟨?_, hnum, hother, ?_, ?_⟩
  · by_cases hc : ∃ n, t = .num n ∧ n ≠ .nan
    · obtain ⟨n, hn, hnan⟩ := hc
      exact ⟨_, hnum n (hn ▸ ht) hnan⟩
    · refine ⟨_, hother ?_⟩
      intro n hn
      by_contra hnan
      rw [ht] at hn
      injection hn with hn
      exact hc ⟨n, hn, hnan⟩
  · intro q
    obtain ⟨k, hk, hlo, hhi⟩ := round_nearest q
    exact ⟨k, hk, hlo, hhi, numberToString_int fmt k⟩
  · refine ⟨.obj [("city", .str "Paris"), ("temperature", .num (toDouble false 186 10)),
      ("description", .str "clear sky")], rfl, ?_⟩
    rw [toDouble_18_6]
    have hspan : temperatureSpan (.obj [("city", .str "Paris"),
        ("temperature", .num (.finite (2617717283409101 / 140737488355328))),
        ("description", .str "clear sky")]) = .ok [.num (.finite 19), .text "°C"] := by
      rw [← round_18_6]
      rfl
    simp only [temperatureText, hspan]
    rfl

theorem temperatureText_spec_witness :
    truthy (.obj [("city", .str "Oslo"), ("temperature", .str "cold")]) = true
      ∧ (∃ s, temperatureText (fun _ => "")
            (.obj [("city", .str "Oslo"), ("temperature", .str "cold")]) = .ok s)
      ∧ (∀ n, getField (.obj [("city", .str "Oslo"), ("temperature", .str "cold")])
            "temperature" = .ok (.num n) → n ≠ .nan →
          temperatureText (fun _ => "")
            (.obj [("city", .str "Oslo"), ("temperature", .str "cold")])
              = .ok (numberToString (fun _ => "") (Math.round n) ++ "°C"))
      ∧ ((∀ n, getField (.obj [("city", .str "Oslo"), ("temperature", .str "cold")])
            "temperature" = .ok (.num n) → n = .nan) →
          temperatureText (fun _ => "")
            (.obj [("city", .str "Oslo"), ("temperature", .str "cold")]) = .ok "N/A°C")
      ∧ (∀ q : ℚ, ∃ k : ℤ, Math.round (.finite q) = .finite k
          ∧ (k : ℚ) - 1 / 2 ≤ q ∧ q < k + 1 / 2
          ∧ (k.natAbs < 2 ^ 53 → numberToString (fun _ => "") (.finite k) = toString k))
      ∧ (∃ v, JSON.parse
            "\x7b\"city\":\"Paris\",\"temperature\":18.6,\"description\":\"clear sky\"\x7d"
              = .ok v
          ∧ temperatureText (fun _ => "") v = .ok "19°C") :=
  ⟨rfl, temperatureText_spec (fun _ => "")
    (.obj [("city", .str "Oslo"), ("temperature", .str "cold")]) rfl⟩

end WeatherApp
